import Mathlib

/-!
Verification of the date-task module (`src/task/03-date-tasks.js`).

The five exported functions are embedded shallowly:

* `parseDataFromRfc2822` / `parseDataFromIso8601` wrap the platform's generic
  date-string parser (`Date.parse`), which is not part of the repository; it is
  abstracted as a total function `String → Option Int` (`none` is the NaN
  "invalid instant" sentinel), and the wrappers' own string pre-processing is
  embedded exactly.
* `isLeapYear` works on the extracted calendar year; JavaScript's truncating
  remainder `%` is `Int.tmod`.
* `timeSpanToString` takes the two instants as epoch milliseconds; JavaScript's
  `%` on the span is `Int.tmod`, and the exact divisions of the source are
  `Int.tdiv` (the numerators are exact multiples).  The dynamic reassignment of
  the `hours` variable inside the millisecond branch chain is kept faithfully.
* `angleBetweenClockHands` takes the UTC hour and minute; its arithmetic is
  embedded over `ℚ` (the degree computation) with the final conversion to
  radians over `ℝ`.
-/

namespace DateTasks

/-! ## parseDataFromRfc2822 / parseDataFromIso8601 -/

/-- `value.search('GMT') !== -1`: naive substring search for the literal
characters `GMT`. -/
def containsGMT : List Char → Bool
  | [] => false
  | c :: rest => ['G', 'M', 'T'].isPrefixOf (c :: rest) || containsGMT rest

/-- Helper for the `/GMT\+[0-9]{4}$/` test, on the reversed character list:
four digits, then `+TMG`. -/
def gmtPlusRevCheck : List Char → Bool
  | d4 :: d3 :: d2 :: d1 :: rest =>
      ['+', 'T', 'M', 'G'].isPrefixOf rest &&
        d1.isDigit && d2.isDigit && d3.isDigit && d4.isDigit
  | _ => false

/-- `/GMT\+[0-9]{4}$/.test(value)`: the string ends with `GMT+` followed by
exactly four decimal digits (checked on the reversed character list). -/
def testGMTPlusOffset (l : List Char) : Bool :=
  gmtPlusRevCheck l.reverse

/-- `/GMT$/.test(value)`: the string ends with the bare characters `GMT`. -/
def endsWithGMT (l : List Char) : Bool :=
  ['T', 'M', 'G'].isPrefixOf l.reverse

/-- The condition guarding the `value += '00'` statement of
`parseDataFromRfc2822`. -/
def rfc2822Cond (value : String) : Bool :=
  containsGMT value.data && !testGMTPlusOffset value.data && !endsWithGMT value.data

/-- The string handed to `Date.parse` by `parseDataFromRfc2822`. -/
def rfc2822Preprocess (value : String) : String :=
  if rfc2822Cond value then value ++ "00" else value

/-- `parseDataFromRfc2822`, parameterised by the platform parser `dateParse`
(`Date.parse`; `none` is the NaN sentinel). -/
def parseDataFromRfc2822 (dateParse : String → Option Int) (value : String) :
    Option Int :=
  dateParse (rfc2822Preprocess value)

/-- `parseDataFromIso8601`: `return Date.parse(value);`. -/
def parseDataFromIso8601 (dateParse : String → Option Int) (value : String) :
    Option Int :=
  dateParse value

/-! ## isLeapYear -/

/-- `isLeapYear`, on the extracted calendar year.  JavaScript `%` truncates
toward zero, hence `Int.tmod`. -/
def isLeapYear (year : Int) : Bool :=
  if year.tmod 400 = 0 then true
  else if year.tmod 100 ≠ 0 ∧ year.tmod 4 = 0 then true
  else false

/-! ## timeSpanToString -/

/-- `timeSpanToString` on the two instants in epoch milliseconds.  Each field
variable of the source is dynamically typed (number, later possibly a string);
here the string it holds at the template literal is computed.  The millisecond
if-chain of the source assigns to `hours`, not `ms`, in its two padding
branches, and that is kept exactly. -/
def timeSpanToString (startMs endMs : Int) : String :=
  let HOUR_MS : Int := 3600000
  let MINUTE_MS : Int := 60000
  let SECOND_MS : Int := 1000
  let span := endMs - startMs
  let ms := span.tmod SECOND_MS
  let seconds := (span.tmod MINUTE_MS - ms).tdiv SECOND_MS
  let minutes := (span.tmod HOUR_MS - seconds * SECOND_MS - ms).tdiv MINUTE_MS
  let hours := (span - span.tmod HOUR_MS).tdiv HOUR_MS
  let hoursStr :=
    if hours = 0 then "00"
    else if hours < 10 then "0" ++ toString hours
    else toString hours
  let minutesStr :=
    if minutes = 0 then "00"
    else if minutes < 10 then "0" ++ toString minutes
    else toString minutes
  let secondsStr :=
    if seconds = 0 then "00"
    else if seconds < 10 then "0" ++ toString seconds
    else toString seconds
  let hoursMs :=
    if ms = 0 then (hoursStr, "000")
    else if ms < 100 then ("0" ++ toString ms, toString ms)
    else if ms < 10 then ("00" ++ toString ms, toString ms)
    else (hoursStr, toString ms)
  hoursMs.1 ++ ":" ++ minutesStr ++ ":" ++ secondsStr ++ "." ++ hoursMs.2

/-- `timeSpanToString` with the dead `ms < 10` branch of the millisecond
if-chain removed; used to state that the branch is unreachable. -/
def timeSpanToStringNoDeadBranch (startMs endMs : Int) : String :=
  let HOUR_MS : Int := 3600000
  let MINUTE_MS : Int := 60000
  let SECOND_MS : Int := 1000
  let span := endMs - startMs
  let ms := span.tmod SECOND_MS
  let seconds := (span.tmod MINUTE_MS - ms).tdiv SECOND_MS
  let minutes := (span.tmod HOUR_MS - seconds * SECOND_MS - ms).tdiv MINUTE_MS
  let hours := (span - span.tmod HOUR_MS).tdiv HOUR_MS
  let hoursStr :=
    if hours = 0 then "00"
    else if hours < 10 then "0" ++ toString hours
    else toString hours
  let minutesStr :=
    if minutes = 0 then "00"
    else if minutes < 10 then "0" ++ toString minutes
    else toString minutes
  let secondsStr :=
    if seconds = 0 then "00"
    else if seconds < 10 then "0" ++ toString seconds
    else toString seconds
  let hoursMs :=
    if ms = 0 then (hoursStr, "000")
    else if ms < 100 then ("0" ++ toString ms, toString ms)
    else (hoursStr, toString ms)
  hoursMs.1 ++ ":" ++ minutesStr ++ ":" ++ secondsStr ++ "." ++ hoursMs.2

/-- Whether the `ms < 10` branch (the one prepending `'00'`) of the millisecond
if-chain is reached: its guard holds and no earlier branch of the chain
fired. -/
def msDeadBranchReached (startMs endMs : Int) : Bool :=
  let span := endMs - startMs
  let ms := span.tmod 1000
  if ms = 0 then false
  else if ms < 100 then false
  else if ms < 10 then true
  else false

/-! ## angleBetweenClockHands -/

/-- The degree part of `angleBetweenClockHands` on the UTC hour and minute:
minute-hand angle, hour-hand angle, absolute difference, folded above 180°.
Exact arithmetic over `ℚ`. -/
def angleBetweenClockHandsDeg (hour minute : ℕ) : ℚ :=
  let minutesArrowAngle : ℚ := (minute : ℚ) * 360 / 60
  let hoursArrowAngle : ℚ := (((hour % 12 : ℕ) : ℚ) + (minute : ℚ) / 60) * 360 / 12
  let angle := |hoursArrowAngle - minutesArrowAngle|
  if angle > 180 then 360 - angle else angle

/-- `angleBetweenClockHands`: the degree value converted to radians
(`angle * Math.PI / 180`). -/
noncomputable def angleBetweenClockHands (hour minute : ℕ) : ℝ :=
  (angleBetweenClockHandsDeg hour minute : ℝ) * Real.pi / 180

/-! ## Spec-side definitions (written from the spec's words, for the
refinement claims) -/

/-- The clock-hand angle in degrees as the spec words it: minute-hand angle is
`minutes × 6°`, hour-hand angle is `((hour mod 12) + minutes/60) × 30°`,
absolute difference, replaced by `360°` minus itself when above `180°`. -/
def clockAngleSpecDeg (hour minute : ℕ) : ℚ :=
  let minuteHand : ℚ := (minute : ℚ) * 6
  let hourHand : ℚ := (((hour % 12 : ℕ) : ℚ) + (minute : ℚ) / 60) * 30
  let diff := |hourHand - minuteHand|
  if diff > 180 then 360 - diff else diff

/-- The append condition as claimed: the string contains `GMT`, `GMT` is not
already followed (at the end of the string) by a 4-digit numeric offset,
positive or negative, and the string does not end in a bare `GMT`. -/
def specRfc2822AppendCond (v : String) : Prop :=
  ['G', 'M', 'T'] <:+: v.data ∧
    ¬(∃ sign d1 d2 d3 d4 : Char,
        (sign = '+' ∨ sign = '-') ∧
          (d1.isDigit ∧ d2.isDigit ∧ d3.isDigit ∧ d4.isDigit) ∧
          ['G', 'M', 'T', sign, d1, d2, d3, d4] <:+ v.data) ∧
    ¬(['G', 'M', 'T'] <:+ v.data)

/-- The amended append condition: as `specRfc2822AppendCond`, but only a
positive (`+`) 4-digit offset suppresses the append; a `-` offset does not. -/
def specRfc2822AppendCondAmended (v : String) : Prop :=
  ['G', 'M', 'T'] <:+: v.data ∧
    ¬(∃ d1 d2 d3 d4 : Char,
        (d1.isDigit ∧ d2.isDigit ∧ d3.isDigit ∧ d4.isDigit) ∧
          ['G', 'M', 'T', '+', d1, d2, d3, d4] <:+ v.data) ∧
    ¬(['G', 'M', 'T'] <:+ v.data)

/-! ## Bridge lemmas: the Boolean scanners of the source, as suffix/infix
statements -/

theorem containsGMT_iff (l : List Char) :
    containsGMT l = true ↔ ['G', 'M', 'T'] <:+: l := by
  induction l with
  | nil => simp [containsGMT]
  | cons c rest ih =>
      rw [containsGMT, Bool.or_eq_true, ih, List.infix_cons_iff]
      simp

theorem endsWithGMT_iff (l : List Char) :
    endsWithGMT l = true ↔ ['G', 'M', 'T'] <:+ l := by
  rw [endsWithGMT, List.isPrefixOf_iff_prefix]
  exact @List.reverse_prefix Char ['G', 'M', 'T'] l

theorem gmtPlusRevCheck_iff (r : List Char) :
    gmtPlusRevCheck r = true ↔
      ∃ d1 d2 d3 d4 : Char,
        (d1.isDigit ∧ d2.isDigit ∧ d3.isDigit ∧ d4.isDigit) ∧
          [d4, d3, d2, d1, '+', 'T', 'M', 'G'] <+: r := by
  match r with
  | [] =>
      simp only [gmtPlusRevCheck, Bool.false_eq_true, false_iff]
      rintro ⟨d1, d2, d3, d4, -, h⟩
      have := h.length_le
      simp at this
  | [a] =>
      simp only [gmtPlusRevCheck, Bool.false_eq_true, false_iff]
      rintro ⟨d1, d2, d3, d4, -, h⟩
      have := h.length_le
      simp at this
  | [a, b] =>
      simp only [gmtPlusRevCheck, Bool.false_eq_true, false_iff]
      rintro ⟨d1, d2, d3, d4, -, h⟩
      have := h.length_le
      simp at this
  | [a, b, c] =>
      simp only [gmtPlusRevCheck, Bool.false_eq_true, false_iff]
      rintro ⟨d1, d2, d3, d4, -, h⟩
      have := h.length_le
      simp at this
  | a4 :: a3 :: a2 :: a1 :: rest =>
      simp only [gmtPlusRevCheck, Bool.and_eq_true]
      constructor
      · rintro ⟨⟨⟨⟨hp, h1⟩, h2⟩, h3⟩, h4⟩
        refine ⟨a1, a2, a3, a4, ⟨h1, h2, h3, h4⟩, ?_⟩
        obtain ⟨t, ht⟩ := (List.isPrefixOf_iff_prefix).mp hp
        exact ⟨t, by simp [← ht]⟩
      · rintro ⟨d1, d2, d3, d4, ⟨h1, h2, h3, h4⟩, ⟨t, ht⟩⟩
        simp only [List.cons_append, List.cons.injEq, List.nil_append] at ht
        obtain ⟨e4, e3, e2, e1, hrest⟩ := ht
        subst e4; subst e3; subst e2; subst e1
        refine ⟨⟨⟨⟨?_, h1⟩, h2⟩, h3⟩, h4⟩
        rw [List.isPrefixOf_iff_prefix]
        exact ⟨t, hrest⟩

theorem testGMTPlusOffset_iff (l : List Char) :
    testGMTPlusOffset l = true ↔
      ∃ d1 d2 d3 d4 : Char,
        (d1.isDigit ∧ d2.isDigit ∧ d3.isDigit ∧ d4.isDigit) ∧
          ['G', 'M', 'T', '+', d1, d2, d3, d4] <:+ l := by
  rw [testGMTPlusOffset, gmtPlusRevCheck_iff]
  constructor
  · rintro ⟨d1, d2, d3, d4, hd, hp⟩
    exact ⟨d1, d2, d3, d4, hd,
      (@List.reverse_prefix Char ['G', 'M', 'T', '+', d1, d2, d3, d4] l).mp hp⟩
  · rintro ⟨d1, d2, d3, d4, hd, hs⟩
    exact ⟨d1, d2, d3, d4, hd,
      (@List.reverse_prefix Char ['G', 'M', 'T', '+', d1, d2, d3, d4] l).mpr hs⟩

/-! ## Theorems -/

/-- C3: `isLeapYear` returns true exactly when the year is divisible by 400, or
divisible by 4 but not by 100; concretely 1900 ↦ false, 2000 ↦ true,
2001 ↦ false, 2012 ↦ true, 2015 ↦ false. -/
theorem isLeapYear_correct :
    (∀ year : Int,
        isLeapYear year = true ↔ (400 ∣ year ∨ (4 ∣ year ∧ ¬(100 ∣ year)))) ∧
      isLeapYear 1900 = false ∧ isLeapYear 2000 = true ∧
      isLeapYear 2001 = false ∧ isLeapYear 2012 = true ∧
      isLeapYear 2015 = false := by
  refine ⟨fun year => ?_, by decide, by decide, by decide, by decide, by decide⟩
  have h400 : year.tmod 400 = 0 ↔ (400 : Int) ∣ year := Int.dvd_iff_tmod_eq_zero.symm
  have h100 : year.tmod 100 = 0 ↔ (100 : Int) ∣ year := Int.dvd_iff_tmod_eq_zero.symm
  have h4 : year.tmod 4 = 0 ↔ (4 : Int) ∣ year := Int.dvd_iff_tmod_eq_zero.symm
  simp only [isLeapYear]
  split_ifs with hA hB
  · exact iff_of_true rfl (Or.inl (h400.mp hA))
  · exact iff_of_true rfl (Or.inr ⟨h4.mp hB.2, fun c => hB.1 (h100.mpr c)⟩)
  · simp only [Bool.false_eq_true, false_iff]
    push_neg
    refine ⟨fun c => hA (h400.mpr c), fun c4 => ?_⟩
    by_contra hc
    exact hB ⟨fun h0 => hc (h100.mp h0), h4.mpr c4⟩

/-- C6: `timeSpanToString` on the five documented example spans (taken from a
10:00:00 baseline): 1 hour, 30 minutes, 20 seconds, 250 milliseconds, and
5 h 20 min 10.453 s. -/
theorem timeSpanToString_examples :
    timeSpanToString 36000000 39600000 = "01:00:00.000" ∧
      timeSpanToString 36000000 37800000 = "00:30:00.000" ∧
      timeSpanToString 36000000 36020000 = "00:00:20.000" ∧
      timeSpanToString 36000000 36000250 = "00:00:00.250" ∧
      timeSpanToString 36000000 55210453 = "05:20:10.453" :=
  ⟨by decide, by decide, by decide, by decide, by decide⟩

/-- C1 (bug evaluation): on a span of 50 ms the `ms < 100` branch of the
millisecond chain overwrites the hours field with the unpadded millisecond
digits, so the result is `"050:00:00.50"` instead of the specified
`"00:00:00.050"`. -/
theorem timeSpanToString_msPaddingBug :
    timeSpanToString 36000000 36000050 = "050:00:00.50" ∧
      "050:00:00.50" ≠ "00:00:00.050" :=
  ⟨by decide, by decide⟩

/-- C10: the `ms < 10` branch of the millisecond chain is unreachable for
every pair of instants, and deleting it does not change the function. -/
theorem timeSpan_deadBranch_unreachable :
    ∀ startMs endMs : Int,
      msDeadBranchReached startMs endMs = false ∧
        timeSpanToString startMs endMs = timeSpanToStringNoDeadBranch startMs endMs := by
  intro s e
  constructor
  · simp only [msDeadBranchReached]
    split_ifs with h1 h2 h3 <;> first | rfl | omega
  · simp only [timeSpanToString, timeSpanToStringNoDeadBranch]
    split_ifs <;> first | rfl | omega

/-- C4: for every UTC hour and minute the clock-hand angle lies in `[0, π]`
radians. -/
theorem angleBetweenClockHands_range (hour minute : ℕ)
    (_hh : hour < 24) (hm : minute < 60) :
    0 ≤ angleBetweenClockHands hour minute ∧
      angleBetweenClockHands hour minute ≤ Real.pi := by
  have h12 : ((hour % 12 : ℕ) : ℚ) ≤ 11 := by
    exact_mod_cast Nat.lt_succ_iff.mp (Nat.mod_lt hour (by norm_num))
  have h120 : (0 : ℚ) ≤ ((hour % 12 : ℕ) : ℚ) := Nat.cast_nonneg _
  have hm59 : ((minute : ℚ)) ≤ 59 := by exact_mod_cast Nat.lt_succ_iff.mp hm
  have hm0 : (0 : ℚ) ≤ (minute : ℚ) := Nat.cast_nonneg _
  have habs :
      |(((hour % 12 : ℕ) : ℚ) + (minute : ℚ) / 60) * 360 / 12 -
          (minute : ℚ) * 360 / 60| < 360 := by
    rw [abs_lt]
    constructor <;> nlinarith
  have hdeg : 0 ≤ angleBetweenClockHandsDeg hour minute ∧
      angleBetweenClockHandsDeg hour minute ≤ 180 := by
    simp only [angleBetweenClockHandsDeg]
    split_ifs with hgt
    · constructor <;> linarith
    · exact ⟨abs_nonneg _, by linarith [not_lt.mp hgt]⟩
  have hd0 : (0 : ℝ) ≤ (angleBetweenClockHandsDeg hour minute : ℝ) := by
    exact_mod_cast hdeg.1
  have hd180 : (angleBetweenClockHandsDeg hour minute : ℝ) ≤ 180 := by
    exact_mod_cast hdeg.2
  have hpi := Real.pi_pos
  constructor
  · simp only [angleBetweenClockHands]
    positivity
  · simp only [angleBetweenClockHands]
    rw [div_le_iff₀ (by norm_num : (0:ℝ) < 180)]
    nlinarith

/-- C4 witness at hour 9, minute 30. -/
theorem angleBetweenClockHands_range_witness :
    0 ≤ angleBetweenClockHands 9 30 ∧ angleBetweenClockHands 9 30 ≤ Real.pi :=
  angleBetweenClockHands_range 9 30 (by decide) (by decide)

/-- C5: the degree computation of `angleBetweenClockHands` agrees everywhere
with the spec's formula (minute hand `m × 6°`, hour hand
`((h mod 12) + m/60) × 30°`, absolute difference folded at `180°`), and the
radian result is `0` at 0:00, `π/2` at 3:00, `π` at 6:00 and `π/2` at 9:00. -/
theorem angleBetweenClockHands_spec :
    (∀ hour minute : ℕ,
        angleBetweenClockHandsDeg hour minute = clockAngleSpecDeg hour minute) ∧
      angleBetweenClockHands 0 0 = 0 ∧
      angleBetweenClockHands 3 0 = Real.pi / 2 ∧
      angleBetweenClockHands 6 0 = Real.pi ∧
      angleBetweenClockHands 9 0 = Real.pi / 2 := by
  refine ⟨fun hour minute => ?_, ?_, ?_, ?_, ?_⟩
  · simp only [angleBetweenClockHandsDeg, clockAngleSpecDeg]
    have e1 : (minute : ℚ) * 360 / 60 = (minute : ℚ) * 6 := by ring
    have e2 : (((hour % 12 : ℕ) : ℚ) + (minute : ℚ) / 60) * 360 / 12 =
        (((hour % 12 : ℕ) : ℚ) + (minute : ℚ) / 60) * 30 := by ring
    rw [e1, e2]
  · have h0 : angleBetweenClockHandsDeg 0 0 = 0 := by
      simp only [angleBetweenClockHandsDeg]
      norm_num
    simp [angleBetweenClockHands, h0]
  · have h3 : angleBetweenClockHandsDeg 3 0 = 90 := by
      simp only [angleBetweenClockHandsDeg]
      norm_num [abs_of_nonneg]
    rw [angleBetweenClockHands, h3]
    push_cast
    ring
  · have h6 : angleBetweenClockHandsDeg 6 0 = 180 := by
      simp only [angleBetweenClockHandsDeg]
      norm_num [abs_of_nonneg]
    rw [angleBetweenClockHands, h6]
    push_cast
    ring
  · have h9 : angleBetweenClockHandsDeg 9 0 = 90 := by
      simp only [angleBetweenClockHandsDeg]
      norm_num [abs_of_nonneg]
    rw [angleBetweenClockHands, h9]
    push_cast
    ring

theorem rfc2822Cond_iff (v : String) :
    rfc2822Cond v = true ↔ specRfc2822AppendCondAmended v := by
  unfold rfc2822Cond specRfc2822AppendCondAmended
  rw [← containsGMT_iff, ← endsWithGMT_iff, ← testGMTPlusOffset_iff]
  cases containsGMT v.data <;> cases testGMTPlusOffset v.data <;>
    cases endsWithGMT v.data <;> simp

/-- C2 (counterexample): on `"GMT-0100"` the source appends `"00"` even though
`GMT` is followed by a negative 4-digit offset, refuting the claimed
iff-condition (which exempts both `+` and `-` offsets). -/
theorem rfc2822_claim_counterexample :
    ¬(rfc2822Preprocess "GMT-0100" = "GMT-0100" ++ "00" ↔
        specRfc2822AppendCond "GMT-0100") := by
  intro h
  have hs := h.mp (by decide)
  exact hs.2.1
    ⟨'-', '0', '1', '0', '0', Or.inr rfl,
      ⟨by decide, by decide, by decide, by decide⟩, ⟨[], by decide⟩⟩

/-- C2 (amended): `parseDataFromRfc2822` appends `"00"` before delegating iff
the string contains `GMT`, does not end in `GMT+` followed by exactly four
digits (a `-` offset does not suppress the append), and does not end in a bare
`GMT`; otherwise the string is passed unchanged. -/
theorem rfc2822_append_iff :
    ∀ v : String,
      (rfc2822Preprocess v = v ++ "00" ↔ specRfc2822AppendCondAmended v) ∧
        (¬specRfc2822AppendCondAmended v → rfc2822Preprocess v = v) := by
  intro v
  have key : rfc2822Preprocess v = v ++ "00" ↔ specRfc2822AppendCondAmended v := by
    rw [← rfc2822Cond_iff, rfc2822Preprocess]
    cases hc : rfc2822Cond v with
    | true => simp
    | false =>
        rw [if_neg (by simp)]
        constructor
        · intro h
          exfalso
          have hl := congrArg String.length h
          rw [String.length_append] at hl
          have h2 : ("00" : String).length = 2 := rfl
          rw [h2] at hl
          omega
        · intro h
          simp at h
  refine ⟨key, fun hn => ?_⟩
  rw [rfc2822Preprocess, if_neg]
  intro hc
  exact hn ((rfc2822Cond_iff v).mp hc)

/-- C7: the parse wrappers are total and propagate the underlying parser's
"invalid instant" sentinel (`none`, the model of NaN) instead of raising. -/
theorem parse_functions_no_throw :
    ∀ (dateParse : String → Option Int) (value : String),
      (dateParse (rfc2822Preprocess value) = none →
          parseDataFromRfc2822 dateParse value = none) ∧
        (dateParse value = none → parseDataFromIso8601 dateParse value = none) :=
  fun _ _ => ⟨fun h => h, fun h => h⟩

/-- C8: `parseDataFromIso8601` is exactly the underlying generic parser, with
no pre-transformation of the input. -/
theorem parseDataFromIso8601_no_pretransform :
    ∀ (dateParse : String → Option Int) (value : String),
      parseDataFromIso8601 dateParse value = dateParse value :=
  fun _ _ => rfl

/-- C9: each of the five exported functions is deterministic: two calls with
identical arguments (and the same underlying parser) give identical results. -/
theorem exported_functions_deterministic :
    (∀ (dateParse : String → Option Int) (value : String),
        parseDataFromRfc2822 dateParse value = parseDataFromRfc2822 dateParse value) ∧
      (∀ (dateParse : String → Option Int) (value : String),
          parseDataFromIso8601 dateParse value = parseDataFromIso8601 dateParse value) ∧
      (∀ year : Int, isLeapYear year = isLeapYear year) ∧
      (∀ startMs endMs : Int,
          timeSpanToString startMs endMs = timeSpanToString startMs endMs) ∧
      (∀ hour minute : ℕ,
          angleBetweenClockHands hour minute = angleBetweenClockHands hour minute) :=
  ⟨fun _ _ => rfl, fun _ _ => rfl, fun _ => rfl, fun _ _ => rfl, fun _ _ => rfl⟩

end DateTasks
